import Mathlib

/-!
Shallow embedding of the voltage client library (src/voltage/client.py and the
cache behaviour its spec describes), together with theorems settling the
frozen claims about it.

Conventions of the embedding:
* Python dicts used as registries (`self.listeners`, `self.raw_listeners`)
  become functions `String → Option Handler`; dict assignment becomes pointwise
  update (last write wins, exactly as in a dict).
* An async handler invocation is summarised by an `HOutcome`: it returns
  normally, raises an exception, or never returns.  `dispatch` performs a bare
  `await func(*args)` with no try/except, so its own outcome is the handler
  outcome; this is recorded in `DispatchOutcome`.
* Python string `.lower()` becomes `pyLower`, a per-character map (ASCII
  event names and the identifier alphabet are unaffected by unicode edge
  cases).
* Fallible code (subscripting a dict key that may be absent, calling `.lower()`
  on a non-string) is made explicit in the result type.
-/

/-- A JSON-like runtime value, enough to model gateway payloads and
handler arguments. -/
inductive Value where
  | str : String → Value
  | int : Int → Value
  | dict : List (String × Value) → Value

/-- Outcome of awaiting one handler coroutine: it returns normally, raises an
exception carrying a message, or never returns. -/
inductive HOutcome where
  | ok : HOutcome
  | error : String → HOutcome
  | diverge : HOutcome
deriving DecidableEq, Repr

/-- A user-registered handler: an observable identity `hid` plus its behaviour
when awaited on a given argument list. -/
structure Handler where
  hid : Nat
  behavior : List Value → HOutcome

/-- Record of one handler invocation: which handler ran and with which
arguments. -/
structure InvokeRecord where
  hid : Nat
  args : List Value

/-- Outcome of one `dispatch` / `raw_dispatch` call, as seen by its caller
(the read loop):
* `completed r` — the call returned normally; `r` records the handler it
  awaited, if any;
* `raised msg r` — the awaited handler raised and, there being no try/except
  in `dispatch`, the exception propagates out of the call;
* `pyError name` — the dispatch code itself raised `name` (KeyError,
  AttributeError) before looking up any registry;
* `diverges r` — the awaited handler never returns, so the call never
  returns. -/
inductive DispatchOutcome where
  | completed : Option InvokeRecord → DispatchOutcome
  | raised : String → InvokeRecord → DispatchOutcome
  | pyError : String → DispatchOutcome
  | diverges : InvokeRecord → DispatchOutcome

/-- The handler invocation recorded in an outcome, if one was started. -/
def DispatchOutcome.invoked : DispatchOutcome → Option InvokeRecord
  | .completed r => r
  | .raised _ r => some r
  | .pyError _ => none
  | .diverges r => some r

/-- The registry state of a `Client`: the `listeners` and `raw_listeners`
dicts of `Client.__init__` (both start empty). -/
structure ClientState where
  listeners : String → Option Handler
  raw_listeners : String → Option Handler

/-- The state after `Client.__init__`: both registries empty. -/
def ClientState.initial : ClientState :=
  { listeners := fun _ => none, raw_listeners := fun _ => none }

/-- Python str.lower, embedded as a per-character lowercase map over the
string's characters. -/
def pyLower (s : String) : String := String.mk (s.data.map Char.toLower)

/-- Pointwise update of a registry, the meaning of a Python dict assignment
`d[k] = v`: the previous binding for `k`, if any, is replaced. -/
def updateReg (d : String → Option Handler) (k : String) (v : Handler) :
    String → Option Handler :=
  fun x => if x = k then some v else d x

/-- `Client.listen(event, raw=...)` applied to a function `func`: stores
`func` under `event.lower()` in the raw registry when `raw` is true, in the
typed registry otherwise.  (The Python decorator also returns `func`
unchanged, which is cosmetic and not modelled.) -/
def listen (st : ClientState) (event : String) (raw : Bool) (func : Handler) :
    ClientState :=
  if raw then
    { st with raw_listeners := updateReg st.raw_listeners (pyLower event) func }
  else
    { st with listeners := updateReg st.listeners (pyLower event) func }

/-- The outcome of `await func(*args)` as observed by the awaiting caller. -/
def awaitHandler (func : Handler) (args : List Value) : DispatchOutcome :=
  match func.behavior args with
  | .ok => .completed (some ⟨func.hid, args⟩)
  | .error msg => .raised msg ⟨func.hid, args⟩
  | .diverge => .diverges ⟨func.hid, args⟩

/-- `Client.dispatch(event, *args)`: lowercases the event name, looks it up in
the typed registry, and if a handler is present awaits it inline; absence of a
handler is a silent no-op.  There is no try/except around the await. -/
def dispatch (st : ClientState) (event : String) (args : List Value) :
    DispatchOutcome :=
  match st.listeners (pyLower event) with
  | none => .completed none
  | some func => awaitHandler func args

/-- Association-list lookup, the meaning of `payload["type"]` on a payload
dict (successful case). -/
def lookupKey (payload : List (String × Value)) (k : String) : Option Value :=
  (payload.find? (fun p => p.1 = k)).map Prod.snd

/-- `Client.raw_dispatch(payload)`: evaluates `payload["type"].lower()` —
raising KeyError if the key is absent and AttributeError if its value is not a
string — then looks the result up in the raw registry and awaits the handler,
if any, on the payload. -/
def raw_dispatch (st : ClientState) (payload : List (String × Value)) :
    DispatchOutcome :=
  match lookupKey payload "type" with
  | none => .pyError "KeyError"
  | some (.str s) =>
    match st.raw_listeners (pyLower s) with
    | none => .completed none
    | some func => awaitHandler func [.dict payload]
  | some _ => .pyError "AttributeError"

/-- State-passing form of `Client.dispatch`: the method reads
`self.listeners` but never writes to either registry, so the state it leaves
behind is the state it was given. -/
def dispatchS (st : ClientState) (event : String) (args : List Value) :
    ClientState × DispatchOutcome :=
  (st, dispatch st event args)

/-- State-passing form of `Client.raw_dispatch`: likewise it performs no
writes to either registry. -/
def raw_dispatchS (st : ClientState) (payload : List (String × Value)) :
    ClientState × DispatchOutcome :=
  (st, raw_dispatch st payload)

/-- Modelled from the spec: the WebSocketHandler read loop (its module is not
under src/).  The gateway feeds each received envelope to the dispatch
callback in order, awaiting each call; handlers are dispatched in the order
their triggering envelopes were received.  An awaited dispatch that raises
propagates out of the loop body, and one that never returns leaves the loop
suspended, so later envelopes are no longer dispatched. -/
def processEvents (st : ClientState) : List (String × List Value) → List DispatchOutcome
  | [] => []
  | (e, args) :: rest =>
    match dispatch st e args with
    | .completed r => .completed r :: processEvents st rest
    | .raised msg r => [.raised msg r]
    | .pyError name => [.pyError name]
    | .diverges r => [.diverges r]

/-!
Embedding of `Client.get_user` (src/voltage/client.py lines 118-137) and of
the parts of `CacheHandler` it calls.  `CacheHandler` lives in
`voltage/internals`, which is not under src/, so its user lookups are
modelled from the spec; `get_user` itself, including the regular-expression
search, is translated from the source.
-/

/-- Membership in the character class `[0-9A-HJ-KM-NP-TV-Z]` of the regular
expression in `Client.get_user` (digits and upper-case letters minus
I, L, O, U). -/
def isIdChar (c : Char) : Bool :=
  (decide ('0' ≤ c) && decide (c ≤ '9')) ||
  (decide ('A' ≤ c) && decide (c ≤ 'H')) ||
  (decide ('J' ≤ c) && decide (c ≤ 'K')) ||
  (decide ('M' ≤ c) && decide (c ≤ 'N')) ||
  (decide ('P' ≤ c) && decide (c ≤ 'T')) ||
  (decide ('V' ≤ c) && decide (c ≤ 'Z'))

/-- There is a match of `[0-9A-HJ-KM-NP-TV-Z]{26}` starting at position `i` of
the character list: at least 26 characters remain and the next 26 all belong
to the class. -/
def idRunAt (cs : List Char) (i : Nat) : Prop :=
  26 ≤ (List.drop i cs).length ∧ (List.take 26 (List.drop i cs)).all isIdChar

instance (cs : List Char) (i : Nat) : Decidable (idRunAt cs i) := by
  unfold idRunAt; infer_instance

/-- `re.search(r"[0-9A-HJ-KM-NP-TV-Z]\x7b26\x7d", s)`: scans candidate start
positions left to right and returns the matched text of the first position
where 26 consecutive class characters occur, or `none` when no position
matches. -/
def searchId26 : List Char → Option (List Char)
  | [] => none
  | c :: rest =>
    let pre := List.take 26 (c :: rest)
    if pre.length = 26 && pre.all isIdChar then some pre
    else searchId26 rest

/-- Which cache lookup `get_user` performs: `byId key` is
`self.cache.get_user(key)` on a matched identifier, `byName key` is
`self.cache.get_user(key, "name")`. -/
inductive Lookup where
  | byId : String → Lookup
  | byName : String → Lookup
deriving DecidableEq, Repr

/-- The lookup selected by the body of `Client.get_user`: if the regex search
succeeds the matched text (`match.group(0)`) is looked up as an identifier,
otherwise the whole input is looked up as a name. -/
def get_user_lookup (user : String) : Lookup :=
  match searchId26 user.data with
  | some m => .byId (String.mk m)
  | none => .byName user

/-- A cached user, with the two fields `get_user` can resolve by. -/
structure User where
  uid : String
  name : String
deriving DecidableEq, Repr

/-- Modelled from the spec: the user mapping of `CacheHandler` (the
`voltage/internals` module is not under src/).  An unbounded mapping of users,
looked up by identifier or by exact name match. -/
structure Cache where
  users : List User

/-- Modelled from the spec: `CacheHandler` lookup of a user by identifier;
absence is a valid outcome ("NotFound"), reported as `none` rather than by
raising. -/
def Cache.getUserById (c : Cache) (i : String) : Option User :=
  c.users.find? (fun u => u.uid = i)

/-- Modelled from the spec: `CacheHandler` lookup of a user by the secondary
field "name" (exact match); a failed lookup raises ValueError, which is the
exception `Client.get_user` catches. -/
def Cache.getUserByName (c : Cache) (n : String) : Except String User :=
  match c.users.find? (fun u => u.name = n) with
  | some u => .ok u
  | none => .error "ValueError"

/-- `Client.get_user(user)`: if the regex search finds a 26-character
identifier substring, return the cache id-lookup of the matched text;
otherwise try the cache name-lookup of the whole input, turning a ValueError
into `None`.  The `Except` layer records any exception that would escape to
the caller; any other exception than ValueError would not be caught. -/
def get_user (c : Cache) (user : String) : Except String (Option User) :=
  match get_user_lookup user with
  | .byId k => .ok (c.getUserById k)
  | .byName k =>
    match c.getUserByName k with
    | .ok u => .ok (some u)
    | .error e => if e = "ValueError" then .ok none else .error e

/-!
Embedding of the bounded message cache and the client construction that
configures it.  The cache itself is part of `CacheHandler` (not under src/)
and is modelled from the spec; the capacity plumbing is translated from
`Client.__init__` and `Client.start`.
-/

/-- A cached message: its identifier and a content payload standing for the
rest of the entity. -/
structure Message where
  mid : String
  content : String
deriving DecidableEq, Repr

/-- Modelled from the spec: the bounded message collection of `CacheHandler`
(not under src/).  "Messages: bounded by a configurable capacity; insertion
beyond capacity evicts the oldest-inserted entry (FIFO eviction by insertion
order, not by access)."  `entries` is kept oldest first. -/
structure MessageCache where
  capacity : Nat
  entries : List Message

/-- Modelled from the spec: `put` "inserts or replaces the entity under its
identifier; for the bounded kind, triggers eviction of the oldest entry if
capacity is exceeded after insertion".  Replacement keeps the insertion
position; a fresh identifier is appended and, if the capacity is now
exceeded, the oldest entry is dropped. -/
def MessageCache.put (c : MessageCache) (m : Message) : MessageCache :=
  if c.entries.any (fun x => x.mid = m.mid) then
    { c with entries := c.entries.map (fun x => if x.mid = m.mid then m else x) }
  else
    let es := c.entries ++ [m]
    { c with entries := if c.capacity < es.length then es.drop 1 else es }

/-- A sequence of `put` calls, oldest first. -/
def putSeq (c : MessageCache) (ms : List Message) : MessageCache :=
  ms.foldl MessageCache.put c

/-- The configuration state set by `Client.__init__(*, cache_message_limit=5000)`. -/
structure ClientConfig where
  cache_message_limit : Nat

/-- `Client.__init__` with the argument omitted: the default limit is 5000. -/
def ClientConfig.default : ClientConfig :=
  { cache_message_limit := 5000 }

/-- The message cache created by `Client.start`:
`CacheHandler(self.http, self.loop, self.cache_message_limit)` — the
configured limit is passed to the cache at session start, and the cache
starts empty. -/
def ClientConfig.startCache (cfg : ClientConfig) : MessageCache :=
  { capacity := cfg.cache_message_limit, entries := [] }

/-- The identifier shape exactly as the spec words it: a 26-character string
over the restricted alphabet.  This definition follows the claim text, not
the code, and exists to compare the two. -/
def spec_matchesIdShape (s : String) : Bool :=
  s.length = 26 && s.data.all isIdChar

/-!
Helper lemmas about the regex search and the modelled cache.  None of these
is a claim theorem.
-/

theorem idRunAt_cons_succ (c : Char) (cs : List Char) (i : Nat) :
    idRunAt (c :: cs) (i + 1) ↔ idRunAt cs i := by
  simp [idRunAt]

theorem idRunAt_zero_iff (cs : List Char) :
    idRunAt cs 0 ↔
      ((List.take 26 cs).length = 26 ∧ (List.take 26 cs).all isIdChar = true) := by
  simp only [idRunAt, List.drop_zero, List.length_take]
  constructor
  · rintro ⟨h1, h2⟩; exact ⟨by omega, h2⟩
  · rintro ⟨h1, h2⟩; exact ⟨by omega, h2⟩

theorem searchId26_cond_iff (c : Char) (rest : List Char) :
    ((List.take 26 (c :: rest)).length = 26 &&
      (List.take 26 (c :: rest)).all isIdChar) = true ↔ idRunAt (c :: rest) 0 := by
  rw [idRunAt_zero_iff]
  simp [Bool.and_eq_true]

theorem searchId26_isSome (cs : List Char) (i : Nat) (h : idRunAt cs i) :
    (searchId26 cs).isSome := by
  induction cs generalizing i with
  | nil => simp [idRunAt] at h
  | cons c rest ih =>
    rw [searchId26]
    split
    · rfl
    next hc =>
      cases i with
      | zero => exact absurd ((searchId26_cond_iff c rest).mpr h) hc
      | succ i => exact ih i ((idRunAt_cons_succ c rest i).mp h)

theorem searchId26_eq_some (cs m : List Char) (h : searchId26 cs = some m) :
    ∃ j, m = List.take 26 (List.drop j cs) ∧ idRunAt cs j ∧
      ∀ k, k < j → ¬ idRunAt cs k := by
  induction cs generalizing m with
  | nil => simp [searchId26] at h
  | cons c rest ih =>
    rw [searchId26] at h
    split at h
    next hc =>
      rw [Option.some.injEq] at h
      refine ⟨0, by simpa using h.symm, (searchId26_cond_iff c rest).mp hc, by omega⟩
    next hc =>
      obtain ⟨j, hm, hrun, hmin⟩ := ih m h
      refine ⟨j + 1, by simpa using hm, (idRunAt_cons_succ c rest j).mpr hrun, ?_⟩
      intro k hk
      cases k with
      | zero =>
        intro h0
        exact hc ((searchId26_cond_iff c rest).mpr h0)
      | succ k =>
        intro hk1
        exact hmin k (by omega) ((idRunAt_cons_succ c rest k).mp hk1)

theorem searchId26_none (cs : List Char) (h : searchId26 cs = none) :
    ∀ i, ¬ idRunAt cs i := by
  intro i hi
  have := searchId26_isSome cs i hi
  rw [h] at this
  simp at this

theorem put_capacity (c : MessageCache) (m : Message) :
    (c.put m).capacity = c.capacity := by
  unfold MessageCache.put
  split <;> rfl

theorem putSeq_capacity (ms : List Message) (c : MessageCache) :
    (putSeq c ms).capacity = c.capacity := by
  induction ms generalizing c with
  | nil => rfl
  | cons m rest ih =>
    rw [putSeq, List.foldl_cons, ← putSeq, ih, put_capacity]

theorem putSeq_empty_entries (cap : Nat) (ms : List Message)
    (h : (ms.map Message.mid).Nodup) :
    (putSeq ⟨cap, []⟩ ms).entries = ms.drop (ms.length - cap) := by
  induction ms using List.reverseRecOn with
  | nil => simp [putSeq]
  | append_singleton ms m ih =>
    rw [List.map_append] at h
    obtain ⟨hms, -, hdisj⟩ := List.nodup_append.mp h
    have hnotin : m.mid ∉ ms.map Message.mid := fun hin =>
      hdisj hin (by simp)
    have hih := ih hms
    have hcapeq := putSeq_capacity ms (⟨cap, []⟩ : MessageCache)
    have hstruct : putSeq ⟨cap, []⟩ ms =
        ⟨cap, ms.drop (ms.length - cap)⟩ := by
      cases hps : putSeq (⟨cap, []⟩ : MessageCache) ms with
      | mk c e =>
        rw [hps] at hih hcapeq
        simp only at hih hcapeq
        rw [hih, hcapeq]
    have hany : (ms.drop (ms.length - cap)).any (fun x => x.mid = m.mid) = false := by
      rw [List.any_eq_false]
      intro x hx
      have hxms : x ∈ ms := List.mem_of_mem_drop hx
      simp only [decide_eq_true_eq]
      intro hxm
      exact hnotin (hxm ▸ List.mem_map_of_mem Message.mid hxms)
    rw [putSeq, List.foldl_append, List.foldl_cons, List.foldl_nil, ← putSeq,
      hstruct]
    show (MessageCache.put ⟨cap, ms.drop (ms.length - cap)⟩ m).entries =
      (ms ++ [m]).drop ((ms ++ [m]).length - cap)
    rw [MessageCache.put]
    simp only [hany, Bool.false_eq_true, if_false]
    have hdroplen : (ms.drop (ms.length - cap)).length = ms.length - (ms.length - cap) :=
      List.length_drop _ _
    have htot : (ms ++ [m]).length = ms.length + 1 := by simp
    split
    next hcond =>
      rw [List.length_append, List.length_cons, List.length_nil, hdroplen] at hcond
      have hge : cap ≤ ms.length := by omega
      rcases Nat.eq_zero_or_pos cap with hc0 | hcpos
      · subst hc0
        have e1 : ms.length - 0 = ms.length := by omega
        rw [e1, List.drop_length, htot]
        have e2 : ms.length + 1 - 0 = (ms ++ [m]).length := by rw [htot]; omega
        rw [e2, List.drop_length]
        rfl
      · have hlen1 : 1 ≤ (ms.drop (ms.length - cap)).length := by
          rw [hdroplen]; omega
        rw [List.drop_append_of_le_length hlen1, List.drop_drop, htot]
        have h3 : ms.length + 1 - cap ≤ ms.length := by omega
        rw [List.drop_append_of_le_length h3]
        have h4 : ms.length - cap + 1 = ms.length + 1 - cap := by omega
        rw [h4]
    next hcond =>
      rw [List.length_append, List.length_cons, List.length_nil, hdroplen] at hcond
      have hlt : ms.length < cap := by omega
      have e1 : ms.length - cap = 0 := by omega
      rw [e1, List.drop_zero, htot]
      have e2 : ms.length + 1 - cap = 0 := by omega
      rw [e2, List.drop_zero]

/-!
Shared facts about `awaitHandler` used by several claim theorems.
-/

theorem invoked_awaitHandler (f : Handler) (args : List Value) :
    (awaitHandler f args).invoked = some ⟨f.hid, args⟩ := by
  rw [awaitHandler]
  cases f.behavior args <;> rfl

theorem listeners_listen_typed (st : ClientState) (event : String)
    (func : Handler) :
    (listen st event false func).listeners =
      updateReg st.listeners (pyLower event) func := rfl

theorem raw_listeners_listen_typed (st : ClientState) (event : String)
    (func : Handler) :
    (listen st event false func).raw_listeners = st.raw_listeners := rfl

theorem raw_listeners_listen_raw (st : ClientState) (event : String)
    (func : Handler) :
    (listen st event true func).raw_listeners =
      updateReg st.raw_listeners (pyLower event) func := rfl

theorem listeners_listen_raw (st : ClientState) (event : String)
    (func : Handler) :
    (listen st event true func).listeners = st.listeners := rfl

/-- A handler that never returns, for exercising the dispatch loop. -/
def stallHandler : Handler := ⟨0, fun _ => .diverge⟩

/-- A handler that returns normally, distinct from `stallHandler`. -/
def okHandler : Handler := ⟨1, fun _ => .ok⟩

/-- Registry state with the stalling handler on event "a" and the normal
handler on event "b". -/
def stallState : ClientState :=
  listen (listen ClientState.initial "a" false stallHandler) "b" false okHandler

/-- A handler that raises an exception when invoked. -/
def boomHandler : Handler := ⟨2, fun _ => .error "boom"⟩

/-- A raw handler that raises an exception when invoked. -/
def boomRawHandler : Handler := ⟨6, fun _ => .error "rawboom"⟩

/-- Registry state with a raising typed handler and a raising raw handler,
both on event "a". -/
def errState : ClientState :=
  listen (listen ClientState.initial "a" false boomHandler) "a" true boomRawHandler

/-!
Claim theorems.
-/

/-- C1: for every sequence of put calls into the bounded message cache
exceeding its capacity C (configurable at client construction, default 5000,
passed to the cache at session start), the cache retains exactly the C
most-recently-inserted messages, the oldest-inserted entries having been
evicted first (FIFO by insertion order, independent of reads). -/
theorem message_cache_fifo_eviction (limit : Nat) (ms : List Message)
    (hnodup : (ms.map Message.mid).Nodup) (hexceed : limit < ms.length) :
    (putSeq (ClientConfig.startCache ⟨limit⟩) ms).entries =
      ms.drop (ms.length - limit) ∧
    (putSeq (ClientConfig.startCache ⟨limit⟩) ms).entries.length = limit ∧
    ClientConfig.default.cache_message_limit = 5000 := by
  have h1 : (putSeq (ClientConfig.startCache ⟨limit⟩) ms).entries =
      ms.drop (ms.length - limit) := putSeq_empty_entries limit ms hnodup
  refine ⟨h1, ?_, rfl⟩
  rw [h1, List.length_drop]
  omega

/-- Witness for C1 at capacity 2 and three distinct puts: the cache keeps the
two most recent messages. -/
theorem message_cache_fifo_eviction_witness :
    (putSeq (ClientConfig.startCache ⟨2⟩)
        [⟨"a", "1"⟩, ⟨"b", "2"⟩, ⟨"c", "3"⟩]).entries =
      ([⟨"a", "1"⟩, ⟨"b", "2"⟩, ⟨"c", "3"⟩] : List Message).drop
        (([⟨"a", "1"⟩, ⟨"b", "2"⟩, ⟨"c", "3"⟩] : List Message).length - 2) ∧
    (putSeq (ClientConfig.startCache ⟨2⟩)
        [⟨"a", "1"⟩, ⟨"b", "2"⟩, ⟨"c", "3"⟩]).entries.length = 2 ∧
    ClientConfig.default.cache_message_limit = 5000 :=
  message_cache_fifo_eviction 2 [⟨"a", "1"⟩, ⟨"b", "2"⟩, ⟨"c", "3"⟩]
    (by decide) (by decide)

/-- C2 counterexample: handler invocation is not decoupled from the read
loop.  With a never-returning handler registered for "a" and a normal handler
for "b", the loop that receives envelope "a" and then envelope "b" never
invokes the "b" handler: `dispatch` awaits the "a" handler inline instead of
scheduling it as an independent task. -/
theorem dispatch_not_decoupled_cex :
    processEvents stallState [("a", []), ("b", [])] = [.diverges ⟨0, []⟩] ∧
    ∀ r ∈ processEvents stallState [("a", []), ("b", [])],
      DispatchOutcome.invoked r ≠ some ⟨1, []⟩ := by
  constructor
  · rfl
  · intro r hr
    rw [show processEvents stallState [("a", []), ("b", [])] =
      [.diverges ⟨0, []⟩] from rfl] at hr
    rw [List.mem_singleton.mp hr]
    simp [DispatchOutcome.invoked]

/-- C2 amended: `dispatch` awaits the registered handler inline — its outcome
is exactly the handler's outcome — so under the sequential read loop a
handler that never returns prevents dispatch of every subsequently received
event. -/
theorem dispatch_awaits_handler_inline (st : ClientState) (e : String)
    (args : List Value) (f : Handler)
    (hreg : st.listeners (pyLower e) = some f) :
    dispatch st e args = awaitHandler f args ∧
    (f.behavior args = .diverge →
      ∀ rest, processEvents st ((e, args) :: rest) =
        [.diverges ⟨f.hid, args⟩]) := by
  have hd : dispatch st e args = awaitHandler f args := by
    rw [dispatch, hreg]
  refine ⟨hd, ?_⟩
  intro hdiv rest
  have ha : awaitHandler f args = .diverges ⟨f.hid, args⟩ := by
    rw [awaitHandler, hdiv]
  simp only [processEvents]
  rw [hd, ha]

/-- Witness for the amended C2 at the stalling handler: dispatch of "a" is
the handler's own divergence and the second envelope is never dispatched. -/
theorem dispatch_awaits_handler_inline_witness :
    dispatch stallState "a" [] = awaitHandler stallHandler [] ∧
    processEvents stallState [("a", ([] : List Value))] =
      [.diverges ⟨stallHandler.hid, []⟩] :=
  ⟨(dispatch_awaits_handler_inline stallState "a" [] stallHandler rfl).1,
   (dispatch_awaits_handler_inline stallState "a" [] stallHandler rfl).2 rfl []⟩

/-- C3 counterexample: a handler-raised error is not swallowed at the
dispatch boundary of either path.  With a typed handler for "a" that raises,
the `dispatch` call itself ends by propagating that exception — it does not
return normally — and likewise a raising raw handler makes the
`raw_dispatch` call propagate its exception. -/
theorem handler_error_escapes_cex :
    dispatch errState "a" [] = .raised "boom" ⟨2, []⟩ ∧
    (∀ r, dispatch errState "a" [] ≠ .completed r) ∧
    raw_dispatch errState [("type", .str "a")] =
      .raised "rawboom" ⟨6, [.dict [("type", .str "a")]]⟩ ∧
    ∀ r, raw_dispatch errState [("type", .str "a")] ≠ .completed r := by
  refine ⟨rfl, ?_, rfl, ?_⟩
  · intro r h
    rw [show dispatch errState "a" [] = .raised "boom" ⟨2, []⟩ from rfl] at h
    exact DispatchOutcome.noConfusion h
  · intro r h
    rw [show raw_dispatch errState [("type", .str "a")] =
      .raised "rawboom" ⟨6, [.dict [("type", .str "a")]]⟩ from rfl] at h
    exact DispatchOutcome.noConfusion h

/-- C3 amended: `dispatch` and `raw_dispatch` have no error handling: an
error raised by the registered typed handler propagates out of the dispatch
call to its caller, an error raised by the registered raw handler propagates
out of the raw_dispatch call likewise, and under the sequential read loop
such an error ends the iteration, so subsequent events are not dispatched
there. -/
theorem dispatch_propagates_handler_error (st : ClientState) (e : String)
    (args : List Value) (f : Handler) (msg : String)
    (payload : List (String × Value)) (s : String) (g : Handler)
    (msgr : String)
    (hreg : st.listeners (pyLower e) = some f)
    (hb : f.behavior args = .error msg)
    (hty : lookupKey payload "type" = some (.str s))
    (hregr : st.raw_listeners (pyLower s) = some g)
    (hbr : g.behavior [.dict payload] = .error msgr) :
    dispatch st e args = .raised msg ⟨f.hid, args⟩ ∧
    raw_dispatch st payload = .raised msgr ⟨g.hid, [.dict payload]⟩ ∧
    ∀ rest, processEvents st ((e, args) :: rest) =
      [.raised msg ⟨f.hid, args⟩] := by
  have hd : dispatch st e args = .raised msg ⟨f.hid, args⟩ := by
    have h1 : dispatch st e args = awaitHandler f args := by rw [dispatch, hreg]
    rw [h1, awaitHandler, hb]
  have hdr : raw_dispatch st payload =
      .raised msgr ⟨g.hid, [.dict payload]⟩ := by
    have h2 : raw_dispatch st payload = awaitHandler g [.dict payload] := by
      rw [raw_dispatch, hty]
      simp only [hregr]
    rw [h2, awaitHandler, hbr]
  refine ⟨hd, hdr, ?_⟩
  intro rest
  simp only [processEvents]
  rw [hd]

/-- Witness for the amended C3 at the raising typed and raw handlers. -/
theorem dispatch_propagates_handler_error_witness :
    dispatch errState "a" [] = .raised "boom" ⟨boomHandler.hid, []⟩ ∧
    raw_dispatch errState [("type", .str "a")] =
      .raised "rawboom" ⟨boomRawHandler.hid, [.dict [("type", .str "a")]]⟩ ∧
    processEvents errState [("a", ([] : List Value))] =
      [.raised "boom" ⟨boomHandler.hid, []⟩] :=
  ⟨(dispatch_propagates_handler_error errState "a" [] boomHandler "boom"
      [("type", .str "a")] "a" boomRawHandler "rawboom"
      rfl rfl rfl rfl rfl).1,
   (dispatch_propagates_handler_error errState "a" [] boomHandler "boom"
      [("type", .str "a")] "a" boomRawHandler "rawboom"
      rfl rfl rfl rfl rfl).2.1,
   (dispatch_propagates_handler_error errState "a" [] boomHandler "boom"
      [("type", .str "a")] "a" boomRawHandler "rawboom"
      rfl rfl rfl rfl rfl).2.2 []⟩

/-- C4 counterexample: the 27-character input of identifier-alphabet
characters does not match the 26-character identifier shape, yet get_user
resolves it via identifier lookup (of its first 26 characters) instead of
falling through to name lookup as the claim requires. -/
theorem get_user_shape_fallthrough_cex :
    spec_matchesIdShape "AAAAAAAAAAAAAAAAAAAAAAAAAAA" = false ∧
    get_user_lookup "AAAAAAAAAAAAAAAAAAAAAAAAAAA" =
      .byId "AAAAAAAAAAAAAAAAAAAAAAAAAA" ∧
    get_user_lookup "AAAAAAAAAAAAAAAAAAAAAAAAAAA" ≠
      .byName "AAAAAAAAAAAAAAAAAAAAAAAAAAA" := by
  refine ⟨by decide, by decide, by decide⟩

/-- C4 amended: an input that itself matches the 26-character identifier
shape resolves via identifier lookup; more generally any input containing a
26-character identifier substring resolves via identifier lookup, and an
input containing none resolves via name lookup on the full input. -/
theorem get_user_substring_routing (u : String) :
    (spec_matchesIdShape u = true → get_user_lookup u = .byId u) ∧
    ((∃ i, idRunAt u.data i) → ∃ m, get_user_lookup u = .byId m) ∧
    ((∀ i, ¬ idRunAt u.data i) → get_user_lookup u = .byName u) := by
  refine ⟨?_, ?_, ?_⟩
  · intro h
    rw [spec_matchesIdShape, Bool.and_eq_true, decide_eq_true_eq] at h
    obtain ⟨hlen, hall⟩ := h
    have hlen2 : u.data.length = 26 := hlen
    cases hd : u.data with
    | nil => rw [hd] at hlen2; simp at hlen2
    | cons c rest =>
      rw [hd] at hlen2 hall
      have hsearch : searchId26 u.data = some u.data := by
        rw [hd, searchId26]
        have hfull : List.take 26 (c :: rest) = c :: rest :=
          List.take_of_length_le (by rw [hlen2])
        have h1 : (List.take 26 (c :: rest)).length = 26 := by
          rw [hfull, hlen2]
        have h2 : (List.take 26 (c :: rest)).all isIdChar = true := by
          rw [hfull]; exact hall
        rw [if_pos (by rw [Bool.and_eq_true, decide_eq_true_eq]; exact ⟨h1, h2⟩),
          hfull]
      rw [get_user_lookup, hsearch]
  · rintro ⟨i, hi⟩
    have hs := searchId26_isSome u.data i hi
    cases hm : searchId26 u.data with
    | none => rw [hm] at hs; simp at hs
    | some m => exact ⟨String.mk m, by rw [get_user_lookup, hm]⟩
  · intro h
    cases hm : searchId26 u.data with
    | some m =>
      obtain ⟨j, -, hrun, -⟩ := searchId26_eq_some u.data m hm
      exact absurd hrun (h j)
    | none => rw [get_user_lookup, hm]

/-- Witness for the amended C4: a well-formed 26-character identifier goes
through identifier lookup and a plain lowercase name goes through name
lookup. -/
theorem get_user_substring_routing_witness :
    spec_matchesIdShape "01ARZ3NDEKTSV4RRFFQ69G5FAV" = true ∧
    get_user_lookup "01ARZ3NDEKTSV4RRFFQ69G5FAV" =
      .byId "01ARZ3NDEKTSV4RRFFQ69G5FAV" ∧
    get_user_lookup "alice" = .byName "alice" :=
  ⟨by decide,
   (get_user_substring_routing "01ARZ3NDEKTSV4RRFFQ69G5FAV").1 (by decide),
   (get_user_substring_routing "alice").2.2 (by
     intro i hi
     have h26 := hi.1
     rw [List.length_drop] at h26
     have h5 : ("alice".data).length = 5 := rfl
     rw [h5] at h26
     omega)⟩

/-- C5: a name input (one the identifier search does not match anywhere)
with no matching cached user makes get_user return None, and no exception
reaches the caller. -/
theorem get_user_name_miss_returns_none (c : Cache) (u : String)
    (hname : searchId26 u.data = none)
    (hmiss : c.users.find? (fun x => x.name = u) = none) :
    get_user c u = .ok none := by
  have hl : get_user_lookup u = .byName u := by rw [get_user_lookup, hname]
  have hb : c.getUserByName u = .error "ValueError" := by
    rw [Cache.getUserByName, hmiss]
  rw [get_user, hl]
  simp only [hb, if_true]

/-- Witness for C5: looking up the unknown name alice in an empty cache. -/
theorem get_user_name_miss_returns_none_witness :
    searchId26 "alice".data = none ∧
    (Cache.mk []).users.find? (fun x => x.name = "alice") = none ∧
    get_user ⟨[]⟩ "alice" = .ok none :=
  ⟨by decide, rfl, get_user_name_miss_returns_none ⟨[]⟩ "alice" (by decide) rfl⟩

/-- C6: registering handler f and then handler g for the same event name in
the same registry leaves only g active — a later dispatch for any case
variant of that name invokes g with the dispatched arguments, never f, and
registration reports no conflict (it is total and silently replaces).  Both
the typed and the raw registry behave this way. -/
theorem listener_last_write_wins (st : ClientState) (N M : String)
    (f g : Handler) (args : List Value) (payload : List (String × Value))
    (hcase : pyLower M = pyLower N)
    (hty : lookupKey payload "type" = some (.str M))
    (hne : f.hid ≠ g.hid) :
    (listen (listen st N false f) N false g).listeners (pyLower N) = some g ∧
    DispatchOutcome.invoked
      (dispatch (listen (listen st N false f) N false g) M args) =
      some ⟨g.hid, args⟩ ∧
    DispatchOutcome.invoked
      (dispatch (listen (listen st N false f) N false g) M args) ≠
      some ⟨f.hid, args⟩ ∧
    (listen (listen st N true f) N true g).raw_listeners (pyLower N) = some g ∧
    DispatchOutcome.invoked
      (raw_dispatch (listen (listen st N true f) N true g) payload) =
      some ⟨g.hid, [.dict payload]⟩ ∧
    DispatchOutcome.invoked
      (raw_dispatch (listen (listen st N true f) N true g) payload) ≠
      some ⟨f.hid, [.dict payload]⟩ := by
  have hlook : (listen (listen st N false f) N false g).listeners (pyLower M) =
      some g := by
    rw [listeners_listen_typed]
    simp [updateReg, hcase]
  have hd : dispatch (listen (listen st N false f) N false g) M args =
      awaitHandler g args := by
    rw [dispatch, hlook]
  have hlookr :
      (listen (listen st N true f) N true g).raw_listeners (pyLower M) =
      some g := by
    rw [raw_listeners_listen_raw]
    simp [updateReg, hcase]
  have hdr : raw_dispatch (listen (listen st N true f) N true g) payload =
      awaitHandler g [.dict payload] := by
    rw [raw_dispatch, hty]
    simp only [hlookr]
  refine ⟨?_, ?_, ?_, ?_, ?_, ?_⟩
  · rw [listeners_listen_typed]
    simp [updateReg]
  · rw [hd, invoked_awaitHandler]
  · rw [hd, invoked_awaitHandler]
    intro hcontra
    injection hcontra with h1
    injection h1 with h2 h3
    exact hne h2.symm
  · rw [raw_listeners_listen_raw]
    simp [updateReg]
  · rw [hdr, invoked_awaitHandler]
  · rw [hdr, invoked_awaitHandler]
    intro hcontra
    injection hcontra with h1
    injection h1 with h2 h3
    exact hne h2.symm

/-- Witness for C6 at the event name evt, its case variant EVT, and two
distinct handlers in each registry. -/
theorem listener_last_write_wins_witness :
    (listen (listen ClientState.initial "evt" false ⟨3, fun _ => .ok⟩)
        "evt" false ⟨4, fun _ => .ok⟩).listeners (pyLower "evt") =
      some ⟨4, fun _ => .ok⟩ ∧
    DispatchOutcome.invoked
      (dispatch (listen (listen ClientState.initial "evt" false ⟨3, fun _ => .ok⟩)
        "evt" false ⟨4, fun _ => .ok⟩) "EVT" []) = some ⟨4, []⟩ ∧
    DispatchOutcome.invoked
      (dispatch (listen (listen ClientState.initial "evt" false ⟨3, fun _ => .ok⟩)
        "evt" false ⟨4, fun _ => .ok⟩) "EVT" []) ≠ some ⟨3, []⟩ ∧
    (listen (listen ClientState.initial "evt" true ⟨3, fun _ => .ok⟩)
        "evt" true ⟨4, fun _ => .ok⟩).raw_listeners (pyLower "evt") =
      some ⟨4, fun _ => .ok⟩ ∧
    DispatchOutcome.invoked
      (raw_dispatch (listen (listen ClientState.initial "evt" true ⟨3, fun _ => .ok⟩)
        "evt" true ⟨4, fun _ => .ok⟩) [("type", .str "EVT")]) =
      some ⟨4, [.dict [("type", .str "EVT")]]⟩ ∧
    DispatchOutcome.invoked
      (raw_dispatch (listen (listen ClientState.initial "evt" true ⟨3, fun _ => .ok⟩)
        "evt" true ⟨4, fun _ => .ok⟩) [("type", .str "EVT")]) ≠
      some ⟨3, [.dict [("type", .str "EVT")]]⟩ :=
  listener_last_write_wins ClientState.initial "evt" "EVT"
    ⟨3, fun _ => .ok⟩ ⟨4, fun _ => .ok⟩ [] [("type", .str "EVT")]
    (by decide) rfl (by decide)

/-- C7: event-name matching is case-insensitive.  A handler registered under
name N is invoked, with the dispatched arguments, by a typed dispatch of any
case variant M of N, and by a raw dispatch of an envelope whose type field is
such a case variant. -/
theorem dispatch_case_insensitive (st : ClientState) (N M : String)
    (f : Handler) (args : List Value) (payload : List (String × Value))
    (hcase : pyLower M = pyLower N)
    (hty : lookupKey payload "type" = some (.str M)) :
    DispatchOutcome.invoked (dispatch (listen st N false f) M args) =
      some ⟨f.hid, args⟩ ∧
    DispatchOutcome.invoked (raw_dispatch (listen st N true f) payload) =
      some ⟨f.hid, [.dict payload]⟩ := by
  have h1 : (listen st N false f).listeners (pyLower M) = some f := by
    rw [listeners_listen_typed]
    simp [updateReg, hcase]
  have h2 : (listen st N true f).raw_listeners (pyLower M) = some f := by
    rw [raw_listeners_listen_raw]
    simp [updateReg, hcase]
  constructor
  · rw [dispatch, h1, invoked_awaitHandler]
  · rw [raw_dispatch, hty]
    simp only [h2]
    rw [invoked_awaitHandler]

/-- Witness for C7: a handler registered under Message is invoked by typed
dispatch of MESSAGE and by a raw envelope of type MESSAGE. -/
theorem dispatch_case_insensitive_witness :
    DispatchOutcome.invoked
      (dispatch (listen ClientState.initial "Message" false ⟨5, fun _ => .ok⟩)
        "MESSAGE" [.str "hi"]) = some ⟨5, [.str "hi"]⟩ ∧
    DispatchOutcome.invoked
      (raw_dispatch (listen ClientState.initial "Message" true ⟨5, fun _ => .ok⟩)
        [("type", .str "MESSAGE")]) =
      some ⟨5, [.dict [("type", .str "MESSAGE")]]⟩ :=
  dispatch_case_insensitive ClientState.initial "Message" "MESSAGE"
    ⟨5, fun _ => .ok⟩ [.str "hi"] [("type", .str "MESSAGE")] (by decide) rfl

/-- C8: dispatch of an event with no registered handler, typed or raw, is a
silent no-op: the call returns normally, no handler is invoked, no error is
raised, and both registries are left exactly as they were. -/
theorem dispatch_absent_handler_noop (st : ClientState) (e : String)
    (args : List Value) (payload : List (String × Value)) (s : String)
    (h1 : st.listeners (pyLower e) = none)
    (hty : lookupKey payload "type" = some (.str s))
    (h2 : st.raw_listeners (pyLower s) = none) :
    dispatchS st e args = (st, .completed none) ∧
    raw_dispatchS st payload = (st, .completed none) := by
  constructor
  · rw [dispatchS, dispatch, h1]
  · rw [raw_dispatchS, raw_dispatch, hty]
    simp only [h2]

/-- Witness for C8 on the freshly initialised client, which has no handler
for the event x. -/
theorem dispatch_absent_handler_noop_witness :
    dispatchS ClientState.initial "x" [] = (ClientState.initial, .completed none) ∧
    raw_dispatchS ClientState.initial [("type", .str "x")] =
      (ClientState.initial, .completed none) :=
  dispatch_absent_handler_noop ClientState.initial "x" []
    [("type", .str "x")] "x" rfl rfl rfl

/-- C9: raw_dispatch is total only on envelopes carrying a type field.  A
payload without the key type makes it raise KeyError, and a payload whose
type value is not a string (no lower method) makes it raise AttributeError;
in both cases this happens before any registry lookup and the envelope is not
silently ignored (the call does not return normally). -/
theorem raw_dispatch_requires_type (st : ClientState)
    (payload : List (String × Value)) :
    (lookupKey payload "type" = none →
      raw_dispatch st payload = .pyError "KeyError" ∧
      ∀ r, raw_dispatch st payload ≠ .completed r) ∧
    (∀ v, lookupKey payload "type" = some v → (∀ s, v ≠ .str s) →
      raw_dispatch st payload = .pyError "AttributeError" ∧
      ∀ r, raw_dispatch st payload ≠ .completed r) := by
  constructor
  · intro h
    have hd : raw_dispatch st payload = .pyError "KeyError" := by
      rw [raw_dispatch, h]
    exact ⟨hd, fun r hc => by rw [hd] at hc; exact DispatchOutcome.noConfusion hc⟩
  · intro v hv hns
    have hd : raw_dispatch st payload = .pyError "AttributeError" := by
      rcases v with s | n | d
      · exact absurd rfl (hns s)
      · rw [raw_dispatch, hv]
      · rw [raw_dispatch, hv]
    exact ⟨hd, fun r hc => by rw [hd] at hc; exact DispatchOutcome.noConfusion hc⟩

/-- Witness for C9: the empty payload raises KeyError, and a payload whose
type field holds a number raises AttributeError. -/
theorem raw_dispatch_requires_type_witness :
    raw_dispatch ClientState.initial [] = .pyError "KeyError" ∧
    raw_dispatch ClientState.initial [("type", .int 0)] =
      .pyError "AttributeError" :=
  ⟨((raw_dispatch_requires_type ClientState.initial []).1 rfl).1,
   ((raw_dispatch_requires_type ClientState.initial [("type", .int 0)]).2
      (.int 0) rfl (fun _s h => Value.noConfusion h)).1⟩

/-- C10: get_user detects the identifier shape by substring search, not exact
match.  Whenever the input contains a 26-character identifier-alphabet run
anywhere, get_user performs the identifier lookup, on the first (leftmost)
such substring rather than on the full input, and never falls through to a
name lookup. -/
theorem get_user_searches_substring (u : String) (i : Nat)
    (h : idRunAt u.data i) :
    ∃ j, get_user_lookup u =
        .byId (String.mk (List.take 26 (List.drop j u.data))) ∧
      idRunAt u.data j ∧ (∀ k, k < j → ¬ idRunAt u.data k) ∧
      ∀ s, get_user_lookup u ≠ .byName s := by
  have hs := searchId26_isSome u.data i h
  cases hm : searchId26 u.data with
  | none => rw [hm] at hs; simp at hs
  | some m =>
    obtain ⟨j, hmm, hrun, hmin⟩ := searchId26_eq_some u.data m hm
    refine ⟨j, ?_, hrun, hmin, ?_⟩
    · rw [get_user_lookup, hm, hmm]
    · intro _s hc
      rw [get_user_lookup, hm] at hc
      exact Lookup.noConfusion hc

/-- Witness for C10: a mention-wrapped identifier contains a run starting at
index 2, and get_user routes it to an identifier lookup. -/
theorem get_user_searches_substring_witness :
    idRunAt "<@01ARZ3NDEKTSV4RRFFQ69G5FAV>".data 2 ∧
    ∃ j, get_user_lookup "<@01ARZ3NDEKTSV4RRFFQ69G5FAV>" =
        .byId (String.mk (List.take 26
          (List.drop j "<@01ARZ3NDEKTSV4RRFFQ69G5FAV>".data))) ∧
      idRunAt "<@01ARZ3NDEKTSV4RRFFQ69G5FAV>".data j ∧
      (∀ k, k < j → ¬ idRunAt "<@01ARZ3NDEKTSV4RRFFQ69G5FAV>".data k) ∧
      ∀ s, get_user_lookup "<@01ARZ3NDEKTSV4RRFFQ69G5FAV>" ≠ .byName s :=
  ⟨by decide, get_user_searches_substring "<@01ARZ3NDEKTSV4RRFFQ69G5FAV>" 2 (by decide)⟩
